import Mathlib

/-!
Verification of the slogan-voting scripts (`qianduan400toupiao.py`,
`kouhao4000toupiao.py`) against their natural-language specification.

The Python code is shallowly embedded: every definition below mirrors a
function (or an inline block) of one of the two scripts.  Python dicts are
modelled as association lists processed in insertion order, JSON values as
the inductive `JVal`, file contents as `FileState`, and the Streamlit
`st.error`/`st.info` calls that signal failures to the user as values of
`Msg` returned alongside the result.
-/

namespace Slogan

/-- JSON values as produced by `json.loads`.  Numbers are modelled as
integers (the stores only ever hold integer candidate ids; floats do not
occur in any persisted data and are not modelled). -/
inductive JVal where
  | jnull : JVal
  | jbool : Bool → JVal
  | jint : Int → JVal
  | jstr : String → JVal
  | jlist : List JVal → JVal
  | jobj : List (String × JVal) → JVal

/-- A Python dict as an association list in insertion order. -/
abbrev VotesData := List (String × List Int)

/-- Python dict assignment `d[k] = v`: replaces the value of an existing
key in place (keeping its position, as CPython dicts do) and otherwise
appends the new binding. -/
def insertRep {κ α : Type} [DecidableEq κ] : List (κ × α) → κ → α → List (κ × α)
  | [], k, v => [(k, v)]
  | (k', v') :: rest, k, v =>
      if k' = k then (k, v) :: rest else (k', v') :: insertRep rest k v

/-- Python dict lookup `d.get(k)`. -/
def lookupKey {κ α : Type} [DecidableEq κ] : List (κ × α) → κ → Option α
  | [], _ => none
  | (k', v') :: rest, k => if k' = k then some v' else lookupKey rest k

/-- Python `str.strip()`: drop leading and trailing whitespace. -/
def pyStrip (s : String) : String :=
  ⟨((s.data.dropWhile Char.isWhitespace).reverse.dropWhile Char.isWhitespace).reverse⟩

/-- Python `str.startswith(p)`. -/
def strStartsWith (s p : String) : Bool := p.data.isPrefixOf s.data

/-- Python `str.endswith(p)`. -/
def strEndsWith (s p : String) : Bool := p.data.reverse.isPrefixOf s.data.reverse

/-- Python `max` over a list of file names (lexicographic order on
strings), `none` on the empty list. -/
def maxName : List String → Option String
  | [] => none
  | n :: ns => some (ns.foldl (fun a b => if a < b then b else a) n)

/-- Python `int(v)` restricted to the JSON values the stores can hold:
succeeds on integers, booleans and integer-literal strings; fails
(raises `ValueError`/`TypeError`, which `load_all_votes_data` catches)
on everything else.  `None` is skipped by an explicit guard in the code,
which coincides with the failure case here. -/
def pyInt? : JVal → Option Int
  | .jint n => some n
  | .jbool b => some (if b then 1 else 0)
  | .jstr s => (pyStrip s).toInt?
  | _ => none

/-- Parsed content of a file on disk. -/
inductive RawContent where
  | blank : RawContent
  | malformed : RawContent
  | json : JVal → RawContent

/-- A file as seen by the loader: either unreadable (an `OSError` on
`open`/`read`) or raw content. -/
inductive FileState where
  | readError : FileState
  | raw : RawContent → FileState

/-- The user-visible signals emitted through `st.error` / `st.info`
during loading. -/
inductive Msg where
  | jsonDecodeError : Msg
  | loadFail : Msg
  | formatError : Msg
  | recoverInfo : String → Msg
  | recoverFail : Msg
deriving DecidableEq

/-- `qianduan400toupiao.py`, inside `load_all_votes_data`: the per-voter
vote list normalisation — a list keeps the entries `int()` accepts, any
other value is replaced by the empty list. -/
def convertVotes : JVal → List Int
  | .jlist l => l.filterMap pyInt?
  | _ => []

/-- `qianduan400toupiao.py`, inside `load_all_votes_data`: the
`converted_data` dict built from a decoded JSON object (keys are already
strings in JSON, so `str(voter)` is the identity). -/
def convertData (kvs : List (String × JVal)) : List (String × JVal) :=
  kvs.foldl (fun acc kv => insertRep acc kv.1 (.jlist ((convertVotes kv.2).map .jint))) []

/-- The backup files considered by `try_recover_votes_data`: names in the
working directory starting with `all_votes_backup_` and ending in
`.json`. -/
def backup_names (dir : List (String × FileState)) : List String :=
  (dir.map Prod.fst).filter
    (fun n => strStartsWith n "all_votes_backup_" && strEndsWith n ".json")

/-- `qianduan400toupiao.py`, `try_recover_votes_data`: read the
lexicographically greatest (most recent) backup file; a parsed JSON value
is returned verbatim together with an `st.info` message, a blank backup
falls through to the empty dict, and any read or parse failure is caught
and reported, yielding the empty dict. -/
def try_recover_votes_data (dir : List (String × FileState)) : JVal × List Msg :=
  match maxName (backup_names dir) with
  | none => (.jobj [], [])
  | some latest =>
      match lookupKey dir latest with
      | some (.raw (.json v)) => (v, [.recoverInfo latest])
      | some (.raw .blank) => (.jobj [], [])
      | _ => (.jobj [], [.recoverFail])

/-- `qianduan400toupiao.py`, `load_all_votes_data`.  The argument `file`
is the state of `all_votes.json` (`none` when the file does not exist)
and `dir` the directory listing used for backup recovery.  All exception
paths of the Python function are caught inside it, so the embedding is a
total function; the generic-exception path additionally rewrites an empty
store file, a side effect outside the returned value. -/
def load_all_votes_data (file : Option FileState) (dir : List (String × FileState)) :
    JVal × List Msg :=
  match file with
  | none => (.jobj [], [])
  | some .readError => (.jobj [], [.loadFail])
  | some (.raw .blank) => (.jobj [], [])
  | some (.raw .malformed) =>
      let r := try_recover_votes_data dir
      (r.1, .jsonDecodeError :: r.2)
  | some (.raw (.json v)) =>
      match v with
      | .jobj kvs => (.jobj (convertData kvs), [])
      | _ => (.jobj [], [.formatError])

/-- `json.dump` of the in-memory votes dict: the file content written by
`atomic_save_votes_data`. -/
def serializeVotes (data : VotesData) : JVal :=
  .jobj (data.map fun kv => (kv.1, .jlist (kv.2.map .jint)))

/-- The entries of a JSON object (empty for non-objects). -/
def jobjEntries : JVal → List (String × JVal)
  | .jobj kvs => kvs
  | _ => []

/-- A JSON value that is a list containing only integers. -/
def isIntList : JVal → Bool
  | .jlist l => l.all fun v => match v with | .jint _ => true | _ => false
  | _ => false

/-- A JSON value that is an object all of whose values are integer
lists — the shape every consumer of the votes store expects. -/
def isNormalizedMap : JVal → Bool
  | .jobj kvs => kvs.all fun kv => isIntList kv.2
  | _ => false

/-- A JSON value that is an object (a Python dict) at all. -/
def isMapping : JVal → Bool
  | .jobj _ => true
  | _ => false

/-- Discriminates the store-file state whose load path goes through
backup recovery (a `json.JSONDecodeError`). -/
def isMalformedFile : Option FileState → Bool
  | some (.raw .malformed) => true
  | _ => false

/-- The files `atomic_save_votes_data` manipulates: the published store
`all_votes.json` (`none` when absent), the temporary file it writes, and
the backup copies (most recent first). -/
structure FileSystem where
  published : Option VotesData
  temp : Option VotesData
  backups : List VotesData
deriving DecidableEq

/-- `qianduan400toupiao.py`, `atomic_save_votes_data`, one successful
attempt, as the sequence of file-system states after each of its four
steps: (1) write the full store to the temp file, (2) `shutil.copy2` the
current store to a backup, (3) `os.remove("all_votes.json")`,
(4) `os.rename(temp, "all_votes.json")`.  (The surrounding retry loop
and `cleanup_old_files` do not change these states.) -/
def atomic_save_steps (fs : FileSystem) (d : VotesData) : List FileSystem :=
  let s1 : FileSystem := { fs with temp := some d }
  let s2 : FileSystem :=
    { s1 with backups := match s1.published with
        | some p => p :: s1.backups
        | none => s1.backups }
  let s3 : FileSystem := { s2 with published := none }
  let s4 : FileSystem := { s3 with published := some d, temp := none }
  [s1, s2, s3, s4]

/-- The file system after a successful `atomic_save_votes_data`. -/
def atomic_save_result (fs : FileSystem) (d : VotesData) : FileSystem :=
  (atomic_save_steps fs d).getLastD fs

/-- The voter statuses distinguished by `check_voter_status`. -/
inductive VoterStatus where
  | not_started : VoterStatus
  | started_but_not_voted : VoterStatus
  | editing : VoterStatus
  | voted : VoterStatus
deriving DecidableEq

/-- `qianduan400toupiao.py`, `check_voter_status`: derive the current
voter's status from the loaded votes dict and the session's `voted`
flag.  A voter with recorded selections whose session flag is unset is
classified `editing` (the code's comment: they re-entered midway) and is
routed back to the editable voting interface. -/
def check_voter_status (voterId : String) (data : VotesData) (votedFlag : Bool) :
    VoterStatus :=
  if voterId = "" then .not_started
  else
    match lookupKey data voterId with
    | some votes =>
        if votes.length > 0 then
          if votedFlag then .voted else .editing
        else .started_but_not_voted
    | none => .not_started

/-- Outcome of the login button in `display_voter_login`. -/
inductive LoginResult where
  | invalidName : LoginResult
  | alreadyVoted : Nat → LoginResult
  | resumed : String → LoginResult
  | started : String → LoginResult
  | initFailed : LoginResult
deriving DecidableEq

/-- `qianduan400toupiao.py`, `display_voter_login`: the login attempt for
a typed name.  `w` is whether the immediate `atomic_save_votes_data`
succeeds.  A name whose stored list is non-empty is rejected with the
single "already voted" warning; a name with an existing empty record
resumes silently; an unknown name gets a fresh empty record. -/
def display_voter_login (rawName : String) (data : VotesData) (w : Bool) :
    LoginResult × VotesData :=
  let clean := pyStrip rawName
  if clean = "" then (.invalidName, data)
  else
    match lookupKey data clean with
    | some votes =>
        if votes.length > 0 then (.alreadyVoted votes.length, data)
        else (.resumed clean, data)
    | none =>
        let data' := insertRep data clean []
        if w then (.started clean, data') else (.initFailed, data')

/-- `qianduan400toupiao.py`, `display_voting_interface`, the
"保存当前选择" form branch: reject when the new selection exceeds
`max_votes` (leaving the dict unchanged), otherwise write the selection
into the session dict and attempt the atomic save (`w` its success).
Note the session dict keeps the new selection even when the file save
fails, so the voter can retry. -/
def save_draft (data : VotesData) (voterId : String) (sel : List Int)
    (maxVotes : Nat) (w : Bool) : VotesData × Bool :=
  if sel.length > maxVotes then (data, false)
  else (insertRep data voterId sel, w)

/-- What the final-submission branch leaves behind. -/
structure SubmitOutcome where
  voted : Bool
  storeWritten : Bool
  errorShown : Bool
deriving DecidableEq

/-- `qianduan400toupiao.py`, `display_voting_interface`, the
"最终提交投票" branch: validate the count, then set
`st.session_state.voted = True` and only afterwards attempt the atomic
save (`w` its success).  On save failure an error is shown but the
`voted` flag is left `True`.  The votes dict itself is not modified by
this branch. -/
def submit_final_click (data : VotesData) (voterId : String) (maxVotes : Nat)
    (w : Bool) : SubmitOutcome :=
  let sel := (lookupKey data voterId).getD []
  if sel.length = 0 then ⟨false, false, true⟩
  else if sel.length > maxVotes then ⟨false, false, true⟩
  else if w then ⟨true, true, false⟩
  else ⟨true, false, true⟩

/-- `qianduan400toupiao.py`, `admin_interface`, the tally loop: the
`vote_counts` dict built by iterating over every stored vote list (the
values in insertion order) and incrementing per id.  The stored ids are
already integers, so the `int(slogan_id)` conversion is the identity. -/
def admin_vote_counts (data : VotesData) : List (Int × Nat) :=
  ((data.map Prod.snd).flatten).foldl
    (fun acc id =>
      match lookupKey acc id with
      | some n => insertRep acc id (n + 1)
      | none => acc ++ [(id, 1)]) []

/-- The vote count the admin tally reports for candidate `c` (0 when the
candidate has no entry). -/
def adminCountOf (data : VotesData) (c : Int) : Nat :=
  (lookupKey (admin_vote_counts data) c).getD 0

/-- The persistent store together with ghost bookkeeping of which voters
completed a successful final submission — the specification's
`finalized` flag, which the code itself keeps only in the per-session
`voted` variable and never persists. -/
structure ElectionState where
  store : VotesData
  finalizedVoters : List String

/-- The empty election. -/
def electionInit : ElectionState := ⟨[], []⟩

/-- A login attempt, committing the store update of
`display_voter_login`. -/
def op_login (s : ElectionState) (name : String) (w : Bool) : ElectionState :=
  { s with store := (display_voter_login name s.store w).2 }

/-- A draft save, committing the store update of `save_draft`.  It never
touches the finalized bookkeeping: saving a draft does not finalize. -/
def op_save_draft (s : ElectionState) (v : String) (sel : List Int)
    (maxVotes : Nat) (w : Bool) : ElectionState :=
  { s with store := (save_draft s.store v sel maxVotes w).1 }

/-- A final submission: when the save succeeds the voter is recorded as
finalized (the ghost image of the session's `voted := True`). -/
def op_submit_final (s : ElectionState) (v : String) (maxVotes : Nat)
    (w : Bool) : ElectionState :=
  if (submit_final_click s.store v maxVotes w).storeWritten then
    { s with finalizedVoters := v :: s.finalizedVoters }
  else s

/-- The tally the specification asks for: occurrences of `c` counted only
across ballots of finalized voters. -/
def finalized_vote_count (s : ElectionState) (c : Int) : Nat :=
  (((s.store.filter fun kv => s.finalizedVoters.contains kv.1).map Prod.snd).flatten).count c

/-! ## `kouhao4000toupiao.py` -/

/-- `st.session_state.judge_data`: judge identifier ↦ page key
(`"page_1"`, `"page_2"`, …) ↦ selected slogan numbers, both dicts in
insertion order. -/
abbrev JudgeData := List (String × List (String × List Int))

/-- `kouhao4000toupiao.py`, `display_slogans`, the checkbox handler: a
click flips membership of `idx` in the page's selection list — removal
of the first occurrence when present, append when absent and the page
holds fewer than 3, and otherwise a "每页最多选择3个口号" warning with
no change.  The second component is that capacity warning. -/
def toggle_selection (cur : List Int) (idx : Int) : List Int × Bool :=
  if idx ∈ cur then (cur.erase idx, false)
  else if cur.length < 3 then (cur ++ [idx], false)
  else (cur, true)

/-- One toggle applied to a judge's pages dict, including the
initialisation of a missing page key to `[]` done at the top of
`display_slogans`. -/
def toggleOnPage (pages : List (String × List Int)) (page : String) (idx : Int) :
    List (String × List Int) × Bool :=
  let cur := (lookupKey pages page).getD []
  let r := toggle_selection cur idx
  (insertRep pages page r.1, r.2)

/-- A sequence of toggles; the flag stays `true` while no toggle hit the
per-page capacity warning (i.e. every toggle succeeded). -/
def toggleSeq (ops : List (String × Int)) (pages : List (String × List Int)) :
    List (String × List Int) × Bool :=
  ops.foldl (fun acc op =>
    let r := toggleOnPage acc.1 op.1 op.2
    (r.1, acc.2 && !r.2)) (pages, true)

/-- The total number of slogan ids a judge has selected across all
pages. -/
def totalSelections (pages : List (String × List Int)) : Nat :=
  (pages.map fun kv => kv.2.length).sum

/-- First occurrences of a list, in order — the key order of a Python
`Counter` built from it. -/
def dedupFirst (l : List Int) : List Int :=
  l.foldl (fun acc x => if acc.contains x then acc else acc ++ [x]) []

/-- `collections.Counter(l).items()`: each distinct element in
first-occurrence order, paired with its multiplicity. -/
def counterItems (l : List Int) : List (Int × Nat) :=
  (dedupFirst l).map fun x => (x, l.count x)

/-- The insertion step of a stable descending sort by count: an element
is placed after every element with a strictly greater count and before
the first element whose count does not exceed its own, so elements with
equal counts keep their original relative order. -/
def insertByVotes (x : Int × Nat) : List (Int × Nat) → List (Int × Nat)
  | [] => [x]
  | y :: ys => if y.2 > x.2 then y :: insertByVotes x ys else x :: y :: ys

/-- Stable sort by count, descending — the order produced by CPython's
stable `sorted(..., key=count, reverse=True)`. -/
def sortByVotesDesc : List (Int × Nat) → List (Int × Nat)
  | [] => []
  | x :: xs => insertByVotes x (sortByVotesDesc xs)

/-- `Counter(l).most_common()`: counter items sorted by count descending,
ties kept in first-occurrence (insertion) order. -/
def mostCommon (l : List Int) : List (Int × Nat) :=
  sortByVotesDesc (counterItems l)

/-- One row of the result table built by `calculate_vote_results`.  The
percentage column (`得票率`, a formatted float) is presentation only and
is not modelled. -/
structure ResultRow where
  rank : Nat
  idx : Int
  text : String
  votes : Nat
deriving DecidableEq

/-- `kouhao4000toupiao.py`, `calculate_vote_results`, the result loop:
walk `most_common()`, keep only slogan numbers inside `1..len(df)`
(out-of-range numbers are silently skipped), look the text up at
position `idx - 1`, and assign `rank = len(results) + 1`, i.e. one past
the number of rows kept so far (`acc`). -/
def buildResults (df : List String) : List (Int × Nat) → Nat → List ResultRow
  | [], _ => []
  | (idx, votes) :: rest, acc =>
      if 1 ≤ idx ∧ idx ≤ (df.length : Int) then
        ⟨acc + 1, idx, df.getD (idx - 1).toNat "", votes⟩ :: buildResults df rest (acc + 1)
      else buildResults df rest acc

/-- `kouhao4000toupiao.py`, `calculate_vote_results`: flatten every
judge's page selections in insertion order, count them, rank by
descending count, and keep the first `topN` rows. -/
def calculate_vote_results (df : List String) (jd : JudgeData) (topN : Nat) :
    List ResultRow :=
  let allVotes := (jd.map fun jp => (jp.2.map Prod.snd).flatten).flatten
  (buildResults df (mostCommon allVotes) 0).take topN

/-- The ordering the specification claims for the result table: counts
strictly decrease between adjacent rows, or are equal with the slogan
numbers ascending. -/
def rankedTieAscend : List ResultRow → Bool
  | a :: b :: rest =>
      (decide (b.votes < a.votes) || (a.votes == b.votes && decide (a.idx < b.idx)))
        && rankedTieAscend (b :: rest)
  | _ => true

/-- The ranks of the rows are `r, r + 1, r + 2, …` in order. -/
def ranksSequentialFrom : Nat → List ResultRow → Bool
  | _, [] => true
  | r, row :: rest => (row.rank == r) && ranksSequentialFrom (r + 1) rest

/-- One row of the raw-data export.  The timestamp column is wall-clock
presentation and is not modelled. -/
structure RawRow where
  judge : String
  page : Int
  sel : Int
  text : String
deriving DecidableEq

/-- `int(page.split('_')[1])` on a page key; every key is written as
`page_{n}` by `display_slogans`, so the parse always succeeds there. -/
def pageNumOf (page : String) : Int :=
  (((page.splitOn "_").getD 1 "").toInt?).getD 0

/-- `kouhao4000toupiao.py`, `export_raw_data`: one row per recorded
selection, keeping only slogan numbers inside `1..len(df)` and looking
the text up at position `sel - 1`. -/
def export_raw_data (df : List String) (jd : JudgeData) : List RawRow :=
  (jd.map fun jp =>
    (jp.2.map fun pg =>
      (pg.2.filter fun s => decide (1 ≤ s) && decide (s ≤ (df.length : Int))).map
        fun s => ⟨jp.1, pageNumOf pg.1, s, df.getD (s - 1).toNat ""⟩).flatten).flatten

/-! ## Association-list lemmas -/

theorem lookup_insertRep_self {κ α : Type} [DecidableEq κ] (l : List (κ × α)) (k : κ) (v : α) :
    lookupKey (insertRep l k v) k = some v := by
  induction l with
  | nil => simp [insertRep, lookupKey]
  | cons kv rest ih =>
      by_cases h : kv.1 = k <;> simp [insertRep, lookupKey, h, ih]

theorem insertRep_of_lookup_none {κ α : Type} [DecidableEq κ] (l : List (κ × α)) (k : κ) (v : α)
    (h : lookupKey l k = none) : insertRep l k v = l ++ [(k, v)] := by
  induction l with
  | nil => simp [insertRep]
  | cons kv rest ih =>
      by_cases hk : kv.1 = k
      · simp [lookupKey, hk] at h
      · simp [insertRep, lookupKey, hk] at h ⊢
        exact ih h

theorem lookup_append {κ α : Type} [DecidableEq κ] (l₁ l₂ : List (κ × α)) (k : κ) :
    lookupKey (l₁ ++ l₂) k =
      match lookupKey l₁ k with
      | some v => some v
      | none => lookupKey l₂ k := by
  induction l₁ with
  | nil => simp [lookupKey]
  | cons kv rest ih =>
      by_cases h : kv.1 = k <;> simp [lookupKey, h, ih]

theorem lookup_insertRep_ne {κ α : Type} [DecidableEq κ] (l : List (κ × α)) (k k' : κ) (v : α)
    (h : k' ≠ k) : lookupKey (insertRep l k v) k' = lookupKey l k' := by
  induction l with
  | nil => simp [insertRep, lookupKey, Ne.symm h]
  | cons kv rest ih =>
      by_cases hk : kv.1 = k
      · subst hk
        simp [insertRep, lookupKey, Ne.symm h]
      · by_cases hk' : kv.1 = k' <;> simp [insertRep, lookupKey, hk, hk', h, ih]

/-! ## The admin tally counts every stored ballot (C1) -/

theorem adminFold_lookup (l : List Int) :
    ∀ (acc : List (Int × Nat)) (c : Int),
      (lookupKey (l.foldl
          (fun acc id =>
            match lookupKey acc id with
            | some n => insertRep acc id (n + 1)
            | none => acc ++ [(id, 1)]) acc) c).getD 0 =
        (lookupKey acc c).getD 0 + l.count c := by
  induction l with
  | nil => intro acc c; simp
  | cons x rest ih =>
      intro acc c
      rw [List.foldl_cons, ih]
      by_cases hc : c = x
      · subst hc
        rcases h : lookupKey acc c with _ | n
        · simp [h, lookup_append, lookup_insertRep_self, lookupKey, List.count_cons]
          omega
        · simp [h, lookup_insertRep_self, List.count_cons]
          omega
      · rcases h : lookupKey acc x with _ | n
        · simp only [lookup_append, List.count_cons]
          rcases h' : lookupKey acc c with _ | m <;> simp [h', lookupKey, Ne.symm hc, hc]
        · rw [lookup_insertRep_ne acc x c (n + 1) hc]
          simp [List.count_cons, hc]

theorem adminCountOf_eq_count (data : VotesData) (c : Int) :
    adminCountOf data c = ((data.map Prod.snd).flatten).count c := by
  have h := adminFold_lookup ((data.map Prod.snd).flatten) [] c
  simpa [adminCountOf, admin_vote_counts, lookupKey] using h

/-- C1 (amended): the admin tally counts occurrences across *all* stored
ballots.  In particular a ballot saved as a draft — the voter never
performed a final submission, so no finalized mark exists anywhere —
contributes every one of its selected ids to the tally.  (The store
persists no finalized flag at all, so the tally cannot distinguish
drafts from finalized ballots.) -/
theorem tally_counts_draft_ballots (data : VotesData) (v : String) (sel : List Int)
    (c : Int) (maxVotes : Nat) (hv : lookupKey data v = none) (hs : sel.length ≤ maxVotes) :
    adminCountOf (save_draft data v sel maxVotes true).1 c = adminCountOf data c + sel.count c := by
  have hnot : ¬ sel.length > maxVotes := by omega
  rw [adminCountOf_eq_count, adminCountOf_eq_count]
  simp [save_draft, hnot, insertRep_of_lookup_none _ _ _ hv, List.count_append]

/-- Witness for C1 at a concrete store. -/
theorem tally_counts_draft_ballots_witness :
    adminCountOf (save_draft [("bob", [2])] "alice" [1, 2] 20 true).1 1
      = adminCountOf [("bob", [2])] 1 + [1, 2].count 1 :=
  tally_counts_draft_ballots [("bob", [2])] "alice" [1, 2] 1 20 (by decide) (by decide)

/-- C1 counterexample: "alice" logs in and saves a draft selecting
candidate 1, without ever submitting; no voter is finalized, yet the
admin tally credits candidate 1 with one vote, where the claim demands
zero. -/
theorem draft_ballot_counted_cx :
    adminCountOf (op_save_draft (op_login electionInit "alice" true) "alice" [1] 20 true).store 1
      = 1 ∧
    (op_save_draft (op_login electionInit "alice" true) "alice" [1] 20 true).finalizedVoters
      = [] ∧
    finalized_vote_count
      (op_save_draft (op_login electionInit "alice" true) "alice" [1] 20 true) 1 = 0 ∧
    (1 : Nat) ≠ 0 := by
  decide

/-! ## Write failure during final submission (C2) -/

/-- C2 (code bug): with a non-empty in-range selection and a failing
store write, the final-submission branch still sets the session's
`voted` flag to `true` before attempting the save and leaves it `true`
when the save fails.  The shown error asks the voter to retry, but on
the next interaction `check_voter_status` sees `voted = true` and routes
to the read-only result page, so the promised retry is unreachable. -/
theorem submit_fail_leaves_finalized_mark :
    (submit_final_click [("alice", [1, 2])] "alice" 20 false).voted = true ∧
    (submit_final_click [("alice", [1, 2])] "alice" 20 false).storeWritten = false ∧
    (submit_final_click [("alice", [1, 2])] "alice" 20 false).errorShown = true ∧
    check_voter_status "alice" [("alice", [1, 2])] true = .voted := by
  decide

/-! ## Selection-capacity bounds (C3) -/

/-- C3 (amended): the two scripts enforce different capacity rules.  In
`qianduan400toupiao.py` a successful draft save stores exactly the new
selection, which is within `max_votes`, and a successful final
submission requires the stored count to lie in `1..max_votes`.  In
`kouhao4000toupiao.py` the toggle enforces only a *per-page* bound of 3:
each page's list never exceeds 3 entries. -/
theorem selection_capacity_bounds :
    (∀ (cur : List Int) (idx : Int), cur.length ≤ 3 →
      (toggle_selection cur idx).1.length ≤ 3) ∧
    (∀ (data : VotesData) (v : String) (sel : List Int) (maxVotes : Nat) (w : Bool),
      (save_draft data v sel maxVotes w).2 = true →
      lookupKey (save_draft data v sel maxVotes w).1 v = some sel ∧ sel.length ≤ maxVotes) ∧
    (∀ (data : VotesData) (v : String) (maxVotes : Nat) (w : Bool),
      (submit_final_click data v maxVotes w).storeWritten = true →
      1 ≤ ((lookupKey data v).getD []).length ∧
        ((lookupKey data v).getD []).length ≤ maxVotes) := by
  refine ⟨?_, ?_, ?_⟩
  · intro cur idx h
    by_cases hm : idx ∈ cur
    · simp only [toggle_selection, if_pos hm]
      exact le_trans ((cur.erase_sublist idx).length_le) h
    · by_cases hl : cur.length < 3
      · simp only [toggle_selection, if_neg hm, if_pos hl, List.length_append,
          List.length_singleton]
        omega
      · simp [toggle_selection, hm, hl, h]
  · intro data v sel maxVotes w h
    by_cases hlen : sel.length > maxVotes
    · simp [save_draft, hlen] at h
    · refine ⟨?_, by omega⟩
      simp [save_draft, hlen, lookup_insertRep_self]
  · intro data v maxVotes w h
    rcases hn : ((lookupKey data v).getD []).length with _ | n
    · simp [submit_final_click, hn] at h
    · by_cases hm : n + 1 > maxVotes
      · simp [submit_final_click, hn, hm] at h
      · omega

/-- Witness for C3 at concrete inputs. -/
theorem selection_capacity_bounds_witness :
    (toggle_selection [1, 2, 3] 4).1.length ≤ 3 ∧
    lookupKey (save_draft ([] : VotesData) "alice" [1, 2] 20 true).1 "alice" = some [1, 2] ∧
    1 ≤ ((lookupKey [("alice", [1, 2])] "alice").getD ([] : List Int)).length :=
  ⟨selection_capacity_bounds.1 [1, 2, 3] 4 (by decide),
   (selection_capacity_bounds.2.1 [] "alice" [1, 2] 20 true (by decide)).1,
   (selection_capacity_bounds.2.2 [("alice", [1, 2])] "alice" 20 true (by decide)).1⟩

/-! ## Ranking order of the tally (C4) and catalog-index safety (C10) -/

theorem mem_insertByVotes (x z : Int × Nat) (l : List (Int × Nat))
    (h : z ∈ insertByVotes x l) : z = x ∨ z ∈ l := by
  induction l with
  | nil => simpa [insertByVotes] using h
  | cons y ys ih =>
      by_cases hy : y.2 > x.2
      · simp only [insertByVotes, if_pos hy, List.mem_cons] at h
        rcases h with rfl | h
        · exact Or.inr (List.mem_cons_self _ _)
        · rcases ih h with h' | h'
          · exact Or.inl h'
          · exact Or.inr (List.mem_cons_of_mem y h')
      · simp only [insertByVotes, if_neg hy, List.mem_cons] at h
        rcases h with h | h
        · exact Or.inl h
        · exact Or.inr (by simpa using h)

theorem sorted_insertByVotes (x : Int × Nat) (l : List (Int × Nat))
    (h : l.Pairwise fun a b => b.2 ≤ a.2) :
    (insertByVotes x l).Pairwise fun a b => b.2 ≤ a.2 := by
  induction l with
  | nil => simp [insertByVotes]
  | cons y ys ih =>
      rcases List.pairwise_cons.1 h with ⟨hy, hys⟩
      by_cases hgt : y.2 > x.2
      · simp only [insertByVotes, if_pos hgt]
        refine List.pairwise_cons.2 ⟨?_, ih hys⟩
        intro z hz
        rcases mem_insertByVotes x z _ hz with rfl | hz'
        · omega
        · exact hy z hz'
      · simp only [insertByVotes, if_neg hgt]
        refine List.pairwise_cons.2 ⟨?_, h⟩
        intro z hz
        rcases List.mem_cons.1 hz with rfl | hz'
        · omega
        · have := hy z hz'
          omega

theorem sorted_sortByVotesDesc (l : List (Int × Nat)) :
    (sortByVotesDesc l).Pairwise fun a b => b.2 ≤ a.2 := by
  induction l with
  | nil => simp [sortByVotesDesc]
  | cons x xs ih => exact sorted_insertByVotes x _ ih

theorem buildResults_votes_sublist (df : List String) (l : List (Int × Nat)) :
    ∀ acc, ((buildResults df l acc).map ResultRow.votes).Sublist (l.map Prod.snd) := by
  induction l with
  | nil => intro acc; simp [buildResults]
  | cons p rest ih =>
      intro acc
      by_cases hp : 1 ≤ p.1 ∧ p.1 ≤ (df.length : Int)
      · simpa [buildResults, hp] using (ih (acc + 1)).cons₂ p.2
      · simpa [buildResults, hp] using (ih acc).cons p.2

theorem buildResults_ranks (df : List String) (l : List (Int × Nat)) :
    ∀ acc, ranksSequentialFrom (acc + 1) (buildResults df l acc) = true := by
  induction l with
  | nil => intro acc; simp [buildResults, ranksSequentialFrom]
  | cons p rest ih =>
      intro acc
      by_cases hp : 1 ≤ p.1 ∧ p.1 ≤ (df.length : Int)
      · simp [buildResults, hp, ranksSequentialFrom, ih (acc + 1)]
      · simp [buildResults, hp, ih acc]

theorem ranksSequentialFrom_take (l : List ResultRow) :
    ∀ (n r : Nat), ranksSequentialFrom r l = true → ranksSequentialFrom r (l.take n) = true := by
  induction l with
  | nil => intro n r _; simp [ranksSequentialFrom]
  | cons row rest ih =>
      intro n r h
      cases n with
      | zero => simp [ranksSequentialFrom]
      | succ m =>
          simp only [ranksSequentialFrom, Bool.and_eq_true] at h
          simp [List.take_succ_cons, ranksSequentialFrom, h.1, ih m (r + 1) h.2]

/-- C4 (amended): the tally result is ranked by weakly descending vote
count with ranks assigned `1, 2, …` in output order; equal counts keep
the stable first-occurrence order of `Counter.most_common`, not the
ascending-id order the claim states.  Determinism over an identical
ballot data structure is immediate since the embedding is a pure
function of it. -/
theorem ranking_desc_ranks_sequential (df : List String) (jd : JudgeData) (topN : Nat) :
    ((calculate_vote_results df jd topN).Pairwise fun a b => b.votes ≤ a.votes) ∧
    ranksSequentialFrom 1 (calculate_vote_results df jd topN) = true := by
  constructor
  · have hsorted := sorted_sortByVotesDesc
      (counterItems ((jd.map fun jp => (jp.2.map Prod.snd).flatten).flatten))
    have hsub := buildResults_votes_sublist df
      (mostCommon ((jd.map fun jp => (jp.2.map Prod.snd).flatten).flatten)) 0
    have hmap : ((mostCommon ((jd.map fun jp => (jp.2.map Prod.snd).flatten).flatten)).map
        Prod.snd).Pairwise (fun a b => b ≤ a) :=
      (List.pairwise_map).2 (by simpa [mostCommon] using hsorted)
    have h1 := hmap.sublist hsub
    have h2 := h1.sublist ((List.take_sublist topN _).map ResultRow.votes)
    exact (List.pairwise_map).1 h2
  · exact ranksSequentialFrom_take _ topN 1 (buildResults_ranks df _ 0)

/-- C4 counterexample: one judge picks slogans 3 and 1 (in that order) on
one page; both end with one vote, and the result ranks id 3 first — ties
follow first-occurrence order, not ascending candidate id. -/
theorem tie_order_not_ascending_cx :
    calculate_vote_results ["A", "B", "C"] [("j", [("page_1", [3, 1])])] 300
      = [⟨1, 3, "C", 1⟩, ⟨2, 1, "A", 1⟩] ∧
    rankedTieAscend (calculate_vote_results ["A", "B", "C"] [("j", [("page_1", [3, 1])])] 300)
      = false := by
  decide

theorem buildResults_all_inRange (df : List String) (l : List (Int × Nat)) :
    ∀ acc, ((buildResults df l acc).all fun r =>
      decide (1 ≤ r.idx) && decide (r.idx ≤ (df.length : Int))) = true := by
  induction l with
  | nil => intro acc; simp [buildResults]
  | cons p rest ih =>
      intro acc
      by_cases hp : 1 ≤ p.1 ∧ p.1 ≤ (df.length : Int)
      · simp [buildResults, hp, ih (acc + 1)]
      · simp [buildResults, hp, ih acc]

/-- C10: both the tally and the raw-data export keep a recorded selection
only when it lies inside `1..len(catalog)`; every produced row carries an
in-range slogan number, so the position `idx - 1` lookups never leave the
catalog, and out-of-range selections are silently omitted. -/
theorem results_never_index_outside_catalog (df : List String) (jd : JudgeData) (topN : Nat) :
    ((calculate_vote_results df jd topN).all fun r =>
      decide (1 ≤ r.idx) && decide (r.idx ≤ (df.length : Int))) = true ∧
    ((export_raw_data df jd).all fun r =>
      decide (1 ≤ r.sel) && decide (r.sel ≤ (df.length : Int))) = true := by
  constructor
  · rw [List.all_eq_true]
    intro r hr
    have hr' : r ∈ buildResults df
        (mostCommon ((jd.map fun jp => (jp.2.map Prod.snd).flatten).flatten)) 0 :=
      (List.take_sublist topN _).subset hr
    have hall := buildResults_all_inRange df
      (mostCommon ((jd.map fun jp => (jp.2.map Prod.snd).flatten).flatten)) 0
    exact List.all_eq_true.1 hall r hr'
  · rw [List.all_eq_true]
    intro r hr
    simp only [export_raw_data, List.mem_flatten, List.mem_map] at hr
    obtain ⟨_, ⟨jp, _, rfl⟩, hr⟩ := hr
    simp only [List.mem_flatten, List.mem_map] at hr
    obtain ⟨_, ⟨pg, _, rfl⟩, hr⟩ := hr
    simp only [List.mem_map, List.mem_filter] at hr
    obtain ⟨s, ⟨_, hbound⟩, rfl⟩ := hr
    simpa using hbound

/-- C3 counterexample: six toggles, all successful (no capacity warning),
leave a judge with 3 selections on each of two pages — 6 ids in total,
exceeding the only configured limit (3); the bound is per page, not a
single global `max_selections`. -/
theorem per_page_limit_total_exceeds_cx :
    (toggleSeq [("page_1", 1), ("page_1", 2), ("page_1", 3),
        ("page_2", 41), ("page_2", 42), ("page_2", 43)] []).2 = true ∧
    totalSelections (toggleSeq [("page_1", 1), ("page_1", 2), ("page_1", 3),
        ("page_2", 41), ("page_2", 42), ("page_2", 43)] []).1 = 6 ∧
    ¬ (6 ≤ 3) := by
  decide

/-! ## Store round trip (C5) -/

theorem filterMap_pyInt_map_jint (vs : List Int) : (vs.map JVal.jint).filterMap pyInt? = vs := by
  induction vs with
  | nil => rfl
  | cons x xs ih => simp [pyInt?, ih]

theorem convertVotes_serialized (vs : List Int) : convertVotes (.jlist (vs.map .jint)) = vs :=
  filterMap_pyInt_map_jint vs

theorem mem_keys_insertRep {κ α : Type} [DecidableEq κ] (l : List (κ × α)) (k a : κ) (v : α)
    (h : a ∈ (insertRep l k v).map Prod.fst) : a ∈ l.map Prod.fst ∨ a = k := by
  induction l with
  | nil => simpa [insertRep] using h
  | cons kv rest ih =>
      by_cases hk : kv.1 = k
      · simp only [insertRep, if_pos hk, List.map_cons, List.mem_cons] at h
        rcases h with rfl | h
        · exact Or.inr rfl
        · exact Or.inl (List.mem_cons_of_mem _ h)
      · simp only [insertRep, if_neg hk, List.map_cons, List.mem_cons] at h
        rcases h with rfl | h
        · exact Or.inl (List.mem_cons_self _ _)
        · rcases ih h with h' | h'
          · exact Or.inl (List.mem_cons_of_mem _ h')
          · exact Or.inr h'

theorem nodup_keys_insertRep {κ α : Type} [DecidableEq κ] (l : List (κ × α)) (k : κ) (v : α)
    (h : (l.map Prod.fst).Nodup) : ((insertRep l k v).map Prod.fst).Nodup := by
  induction l with
  | nil => simp [insertRep]
  | cons kv rest ih =>
      simp only [List.map_cons, List.nodup_cons] at h
      by_cases hk : kv.1 = k
      · subst hk
        simpa [insertRep] using h
      · simp only [insertRep, if_neg hk, List.map_cons, List.nodup_cons]
        refine ⟨fun hmem => ?_, ih h.2⟩
        rcases mem_keys_insertRep rest k kv.1 v hmem with h' | h'
        · exact h.1 h'
        · exact hk h'

theorem convertData_fold (kvs : List (String × JVal)) :
    ∀ acc, (∀ kv ∈ kvs, lookupKey acc kv.1 = none) → (kvs.map Prod.fst).Nodup →
      kvs.foldl (fun acc kv => insertRep acc kv.1 (.jlist ((convertVotes kv.2).map .jint))) acc
        = acc ++ kvs.map fun kv => (kv.1, JVal.jlist ((convertVotes kv.2).map .jint)) := by
  induction kvs with
  | nil => intro acc _ _; simp
  | cons kv rest ih =>
      intro acc hfresh hnodup
      simp only [List.map_cons, List.nodup_cons] at hnodup
      rw [List.foldl_cons,
        insertRep_of_lookup_none acc kv.1 _ (hfresh kv (List.mem_cons_self _ _)),
        ih (acc ++ [(kv.1, JVal.jlist ((convertVotes kv.2).map .jint))]) ?_ hnodup.2]
      · simp
      · intro kv' hkv'
        rw [lookup_append]
        have hne : kv'.1 ≠ kv.1 := fun he =>
          hnodup.1 (he ▸ List.mem_map_of_mem Prod.fst hkv')
        simp [hfresh kv' (List.mem_cons_of_mem _ hkv'), lookupKey, Ne.symm hne]

theorem convertData_serialized (data : VotesData) (h : (data.map Prod.fst).Nodup) :
    convertData (data.map fun kv => (kv.1, JVal.jlist (kv.2.map .jint)))
      = data.map fun kv => (kv.1, JVal.jlist (kv.2.map .jint)) := by
  have hkeys : ((data.map fun kv => (kv.1, JVal.jlist (kv.2.map .jint))).map Prod.fst).Nodup := by
    simpa [List.map_map, Function.comp] using h
  rw [convertData, convertData_fold _ [] (by simp [lookupKey]) hkeys]
  simp only [List.nil_append, List.map_map]
  refine List.map_congr_left fun kv _ => ?_
  simp [Function.comp, convertVotes_serialized]

/-- C5 (amended): writing the store after `upsert(v, S)` and loading it
back returns the serialized store verbatim — in particular voter `v`'s
selected ids are exactly `S`.  The store file has no finalized field, so
the round trip preserves the selections only; no `finalized == true` can
be read back (see the counterexample). -/
theorem store_roundtrip_selected_ids (data : VotesData) (v : String) (S : List Int)
    (dir : List (String × FileState)) (h : (data.map Prod.fst).Nodup) :
    load_all_votes_data (some (.raw (.json (serializeVotes (insertRep data v S))))) dir
      = (serializeVotes (insertRep data v S), []) ∧
    lookupKey (insertRep data v S) v = some S := by
  refine ⟨?_, lookup_insertRep_self data v S⟩
  have hnodup := nodup_keys_insertRep data v S h
  show (JVal.jobj (convertData _), ([] : List Msg)) = _
  rw [serializeVotes, convertData_serialized _ hnodup]

/-- Witness for C5 on an initially empty store. -/
theorem store_roundtrip_selected_ids_witness :
    load_all_votes_data (some (.raw (.json (serializeVotes (insertRep ([] : VotesData) "alice" [1, 2]))))) []
      = (serializeVotes (insertRep ([] : VotesData) "alice" [1, 2]), []) ∧
    lookupKey (insertRep ([] : VotesData) "alice" [1, 2]) "alice" = some [1, 2] :=
  store_roundtrip_selected_ids [] "alice" [1, 2] [] (by simp)

/-- C5 counterexample: "alice" performs a successful final submission of
`[1, 2]` (session `voted := true`, store written).  Loading the store in
a fresh session returns her ids, but the only finalized notion derivable
from the loaded data — `check_voter_status` with the fresh session's
`voted = false` — classifies her ballot as `editing`, not `voted`: the
`finalized == true` part of the round trip does not hold, because the
store never persists the flag. -/
theorem finalized_flag_not_persisted_cx :
    (submit_final_click [("alice", [1, 2])] "alice" 20 true).voted = true ∧
    (load_all_votes_data (some (.raw (.json (serializeVotes [("alice", [1, 2])])))) []).1
      = serializeVotes [("alice", [1, 2])] ∧
    check_voter_status "alice" [("alice", [1, 2])] false = .editing ∧
    VoterStatus.editing ≠ VoterStatus.voted := by
  refine ⟨rfl, rfl, rfl, by decide⟩

/-! ## Atomic save discipline (C6) -/

/-- C6 (amended): a successful save writes the complete store to a fresh
temporary file and never edits the published file's contents in place —
at every step the published location holds either the old complete
store, the new complete store, or nothing — and it finishes with the new
store published and the temp file renamed away.  The replacement is
*not* a single atomic step, however: the code removes `all_votes.json`
before renaming the temp file over it, so immediately after step 3 the
published location holds no store at all. -/
theorem save_uses_temp_then_replace (fs : FileSystem) (d : VotesData) :
    (∀ s ∈ atomic_save_steps fs d,
      s.published = none ∨ s.published = fs.published ∨ s.published = some d) ∧
    (atomic_save_result fs d).published = some d ∧
    (atomic_save_result fs d).temp = none ∧
    ((atomic_save_steps fs d).map FileSystem.published).get? 2 = some none := by
  refine ⟨?_, rfl, rfl, rfl⟩
  intro s hs
  simp only [atomic_save_steps, List.mem_cons, List.not_mem_nil, or_false] at hs
  rcases hs with rfl | rfl | rfl | rfl <;> simp

/-- Witness for C6 at a concrete file system. -/
theorem save_uses_temp_then_replace_witness :
    ((⟨some [("a", [1])], some [("a", [1, 2])], []⟩ : FileSystem).published = none ∨
      (⟨some [("a", [1])], some [("a", [1, 2])], []⟩ : FileSystem).published
        = (⟨some [("a", [1])], none, []⟩ : FileSystem).published ∨
      (⟨some [("a", [1])], some [("a", [1, 2])], []⟩ : FileSystem).published
        = some [("a", [1, 2])]) ∧
    (atomic_save_result ⟨some [("a", [1])], none, []⟩ [("a", [1, 2])]).published
      = some [("a", [1, 2])] :=
  ⟨(save_uses_temp_then_replace ⟨some [("a", [1])], none, []⟩ [("a", [1, 2])]).1
      ⟨some [("a", [1])], some [("a", [1, 2])], []⟩ (by decide),
   (save_uses_temp_then_replace ⟨some [("a", [1])], none, []⟩ [("a", [1, 2])]).2.1⟩

/-- C6 counterexample: replacing an existing store passes through an
intermediate state (after `os.remove`, before `os.rename`) in which the
published location holds no version at all — the replacement is two
steps, not one atomic step. -/
theorem publish_gap_cx :
    (atomic_save_steps ⟨some [("a", [1])], none, []⟩ [("a", [1, 2])]).map FileSystem.published
      = [some [("a", [1])], some [("a", [1])], none, some [("a", [1, 2])]] ∧
    ¬ (∀ s ∈ atomic_save_steps ⟨some [("a", [1])], none, []⟩ [("a", [1, 2])],
        s.published ≠ none) := by
  decide

/-! ## Login collision handling (C7) -/

/-- C7 (amended): the login outcome depends only on whether the typed
name's stored selection list is non-empty.  Any non-empty record — draft
or finalized alike, the store cannot tell them apart — is rejected with
the single "already voted" warning; an existing empty record resumes
silently; an unknown name gets a fresh empty record (or an
initialisation error when the immediate save fails). -/
theorem login_rejects_nonempty_records (name : String) (data : VotesData) (w : Bool)
    (hne : pyStrip name ≠ "") :
    (∀ votes, lookupKey data (pyStrip name) = some votes → votes.length > 0 →
      display_voter_login name data w = (.alreadyVoted votes.length, data)) ∧
    (lookupKey data (pyStrip name) = some [] →
      display_voter_login name data w = (.resumed (pyStrip name), data)) ∧
    (lookupKey data (pyStrip name) = none →
      display_voter_login name data w =
        ((if w then .started (pyStrip name) else .initFailed),
          insertRep data (pyStrip name) [])) := by
  refine ⟨?_, ?_, ?_⟩
  · intro votes hl hlen
    simp [display_voter_login, hne, hl, hlen]
  · intro hl
    simp [display_voter_login, hne, hl]
  · intro hl
    cases w <;> simp [display_voter_login, hne, hl]

/-- Witness for C7 covering all three login outcomes. -/
theorem login_rejects_nonempty_records_witness :
    display_voter_login "alice" [("alice", [5])] true = (.alreadyVoted 1, [("alice", [5])]) ∧
    display_voter_login "bob" [("bob", [])] true = (.resumed "bob", [("bob", [])]) ∧
    display_voter_login "eve" [] true = (.started "eve", [("eve", [])]) :=
  ⟨(login_rejects_nonempty_records "alice" [("alice", [5])] true (by decide)).1 [5]
      (by decide) (by decide),
   (login_rejects_nonempty_records "bob" [("bob", [])] true (by decide)).2.1 (by decide),
   (login_rejects_nonempty_records "eve" [] true (by decide)).2.2 (by decide)⟩

/-- C7 counterexample: "alice" saves a *draft* selecting candidate 5 and
is never finalized, yet a later login with her name is rejected with the
"already voted" warning instead of resuming the draft session, and the
rejection is the same single error used for completed ballots. -/
theorem draft_collision_rejected_cx :
    (display_voter_login "alice"
        (op_save_draft (op_login electionInit "alice" true) "alice" [5] 20 true).store true).1
      = .alreadyVoted 1 ∧
    (op_save_draft (op_login electionInit "alice" true) "alice" [5] 20 true).finalizedVoters
      = [] ∧
    LoginResult.alreadyVoted 1 ≠ .resumed "alice" := by
  decide

/-! ## Soft-fail loading and backup recovery (C8) -/

/-- C8 (amended): loading a corrupt store never raises (the embedding is
total by construction, mirroring the catch-all exception handlers):
it always surfaces an error signal, returns the empty mapping when no
backup file exists, and otherwise returns the parsed content of the
lexicographically latest backup verbatim.  Because that recovered value
is returned verbatim, it need not be a mapping (see the
counterexample). -/
theorem load_recovers_from_latest_backup (dir : List (String × FileState)) :
    (load_all_votes_data (some (.raw .malformed)) dir).2 ≠ [] ∧
    (backup_names dir = [] →
      load_all_votes_data (some (.raw .malformed)) dir = (.jobj [], [.jsonDecodeError])) ∧
    (∀ latest v, maxName (backup_names dir) = some latest →
      lookupKey dir latest = some (.raw (.json v)) →
      load_all_votes_data (some (.raw .malformed)) dir
        = (v, [.jsonDecodeError, .recoverInfo latest])) := by
  refine ⟨?_, ?_, ?_⟩
  · simp [load_all_votes_data]
  · intro h
    simp [load_all_votes_data, try_recover_votes_data, h, maxName]
  · intro latest v hmax hlook
    simp [load_all_votes_data, try_recover_votes_data, hmax, hlook]

/-- Witness for C8: a corrupt store with one parseable backup recovers
that backup's content together with the error and recovery signals. -/
theorem load_recovers_from_latest_backup_witness :
    load_all_votes_data (some (.raw .malformed))
        [("all_votes_backup_1.json", .raw (.json (.jobj [("a", .jlist [.jint 1])])))]
      = (.jobj [("a", .jlist [.jint 1])],
          [.jsonDecodeError, .recoverInfo "all_votes_backup_1.json"]) :=
  (load_recovers_from_latest_backup
      [("all_votes_backup_1.json", .raw (.json (.jobj [("a", .jlist [.jint 1])])))]).2.2
    "all_votes_backup_1.json" (.jobj [("a", .jlist [.jint 1])]) (by rfl) (by rfl)

/-- C8 counterexample: the backup-recovery path returns the backup's
parsed JSON verbatim, so a corrupt store with a backup holding a JSON
array makes `load_all_votes_data` return a non-mapping, against the
claim that every store content yields a mapping. -/
theorem recovery_returns_nonmapping_cx :
    isMapping (load_all_votes_data (some (.raw .malformed))
        [("all_votes_backup_1.json", .raw (.json (.jlist [.jint 1])))]).1 = false := by
  rfl

/-! ## Normalisation of loaded data (C9) -/

theorem isIntList_map_jint (l : List Int) : isIntList (.jlist (l.map .jint)) = true := by
  show (l.map JVal.jint).all _ = true
  rw [List.all_eq_true]
  intro v hv
  rcases List.mem_map.1 hv with ⟨a, _, rfl⟩
  rfl

theorem all_isIntList_insertRep (acc : List (String × JVal)) (k : String) (v : JVal)
    (ha : (acc.all fun kv => isIntList kv.2) = true) (hv : isIntList v = true) :
    ((insertRep acc k v).all fun kv => isIntList kv.2) = true := by
  induction acc with
  | nil => simp [insertRep, hv]
  | cons kv rest ih =>
      simp only [List.all_cons, Bool.and_eq_true] at ha
      by_cases hk : kv.1 = k <;> simp [insertRep, hk, ha.1, ha.2, hv, ih ha.2]

theorem convertData_all_isIntList (kvs : List (String × JVal)) :
    ∀ acc, (acc.all fun kv => isIntList kv.2) = true →
      ((kvs.foldl (fun acc kv => insertRep acc kv.1 (.jlist ((convertVotes kv.2).map .jint))) acc).all
          fun kv => isIntList kv.2) = true := by
  induction kvs with
  | nil => intro acc ha; simpa using ha
  | cons kv rest ih =>
      intro acc ha
      exact ih _ (all_isIntList_insertRep acc kv.1 _ ha (isIntList_map_jint _))

/-- C9 (amended): every load path *except* backup recovery returns a
normalized mapping — string keys, values lists of integers, with
non-convertible entries dropped and non-list values replaced by the
empty list.  The recovery path returns the backup's parsed JSON
verbatim, unnormalized (see the counterexample). -/
theorem load_normalizes_nonrecovery_paths (file : Option FileState)
    (dir : List (String × FileState)) (h : isMalformedFile file = false) :
    isNormalizedMap (load_all_votes_data file dir).1 = true := by
  match file with
  | none => rfl
  | some .readError => rfl
  | some (.raw .blank) => rfl
  | some (.raw .malformed) => simp [isMalformedFile] at h
  | some (.raw (.json (.jnull))) => rfl
  | some (.raw (.json (.jbool b))) => rfl
  | some (.raw (.json (.jint n))) => rfl
  | some (.raw (.json (.jstr s))) => rfl
  | some (.raw (.json (.jlist l))) => rfl
  | some (.raw (.json (.jobj kvs))) =>
      have hall := convertData_all_isIntList kvs [] rfl
      show isNormalizedMap (.jobj (convertData kvs)) = true
      simpa [isNormalizedMap, convertData] using hall

/-- Witness for C9: a well-formed store with one convertible and one
inconvertible entry loads to a normalized mapping. -/
theorem load_normalizes_nonrecovery_paths_witness :
    isNormalizedMap (load_all_votes_data
        (some (.raw (.json (.jobj [("a", .jlist [.jint 1, .jnull])])))) []).1 = true :=
  load_normalizes_nonrecovery_paths
    (some (.raw (.json (.jobj [("a", .jlist [.jint 1, .jnull])])))) [] (by rfl)

/-- C9 counterexample: recovering from a backup whose vote list holds a
non-integer string returns that value unnormalized, so a downstream
consumer does see a non-integer candidate id. -/
theorem recovery_skips_normalization_cx :
    isNormalizedMap (load_all_votes_data (some (.raw .malformed))
        [("all_votes_backup_1.json", .raw (.json (.jobj [("alice", .jlist [.jstr "x"])])))]).1
      = false := by
  rfl

end Slogan
